import Mathlib

/-!
Shallow embedding of the eslint rule `import-core-last`
(src/tools/eslint-plugin-cdk/lib/rules/import-core-last.ts).

The rule rewrites qualified references `xxx.Construct` to the unqualified
canonical form and keeps a `CoreConstruct` alias import isolated on its own
line.  The embedding models the AST node shapes the rule inspects, the
global import cache, the per-file pending isolation violation, and the two
fix recipes, as executable Lean functions.

Modelling conventions:
  - estree text ranges are always present under the parser configurations
    this rule runs with, so the truthiness guards on `.range` in the source
    always pass and the non-null assertion `range!` is sound; ranges are
    therefore modelled as total fields.
  - AST nodes carry a numeric `id` standing for object identity, used for
    report locations and `insertTextAfter` anchors.
-/

namespace ImportCoreLast

/-- Text range `[start, end)` of a node, as in the estree `range` field. -/
abbrev Range := Nat × Nat

/-- Import specifier shapes, mirroring the switch in `typeName()`:
`ImportSpecifier` (named, possibly renamed), `ImportDefaultSpecifier`,
`ImportNamespaceSpecifier`.  Each carries its bound local name and range. -/
inductive Spec where
  | named (imported : String) (localName : String) (range : Range)
  | defaultSpec (localName : String) (range : Range)
  | namespaceSpec (localName : String) (range : Range)
deriving DecidableEq, Repr

/-- Mirrors `s.local.name`. -/
def specLocalName : Spec → String
  | .named _ l _ => l
  | .defaultSpec l _ => l
  | .namespaceSpec l _ => l

/-- Mirrors the `typeName()` closure: the imported name for a named
specifier, the local name for default and namespace specifiers. -/
def specTypeName : Spec → String
  | .named imported _ _ => imported
  | .defaultSpec l _ => l
  | .namespaceSpec l _ => l

/-- Mirrors `s.range`. -/
def specRange : Spec → Range
  | .named _ _ r => r
  | .defaultSpec _ r => r
  | .namespaceSpec _ r => r

/-- An `ImportDeclaration` node: `node.source.value` and the specifier
list, plus a node id for `insertTextAfter` anchoring. -/
structure ImportDecl where
  id : Nat
  source : String
  specifiers : List Spec
deriving DecidableEq, Repr

/-- Modelled from the spec: one record of the Import Cache
(`../private/import-cache`, whose source is not included): every field the
rule stores in `importCache.record(\x7b fileName, typeName, importNode,
localName \x7d)`.  The spec describes the cache as an append-only store
of import bindings, each tagged with its originating file, with the
composite key `module-specifier + "." + local-name`. -/
structure ImportCacheRecord where
  fileName : String
  typeName : String
  importNode : ImportDecl
  localName : String
deriving DecidableEq, Repr

/-- The `ImportOrderViolation` interface: the offending import declaration
node and the text range to delete. -/
structure ImportOrderViolation where
  node : ImportDecl
  range : Range
deriving DecidableEq, Repr

/-- The mutable state of the rule module: `importCache.imports` (global,
append-only, modelled from the spec as a list of records) and the
module-level `importOrderViolation` slot. -/
structure RuleState where
  imports : List ImportCacheRecord
  importOrderViolation : Option ImportOrderViolation
deriving DecidableEq, Repr

/-- Initial module state: an empty cache and an unset violation slot. -/
def initialState : RuleState := { imports := [], importOrderViolation := none }

/-- Fix edits produced by the rule, mirroring the `fixer` calls it makes. -/
inductive Fix where
  | replaceRange (range : Range) (text : String)
  | removeRange (range : Range)
  | insertTextAfter (node : ImportDecl) (text : String)
deriving DecidableEq, Repr

/-- A report handed to `context.report`: message, reported node id, and the
edits of its fix.  `fix = none` models the isolation fix builder throwing a
TypeError when it dereferences an absent last import (see
`reportImportOrderViolations`); every successfully built fix is `some`. -/
structure Report where
  message : String
  node : Nat
  fix : Option (List Fix)
deriving DecidableEq, Repr

/-- Message of the qualified-reference violation report. -/
def qualifierViolationMessage : String :=
  "To avoid merge conflicts with the v2-main branch, the \"Construct\" type must be referenced without a qualifier (e.g. \"Construct\" instead of \"CoreConstruct\")"

/-- Message of the import-isolation violation report. -/
def isolationViolationMessage : String :=
  "To avoid merge conflicts with the v2 branch, \"CoreConstruct\" import should be in its own line"

/-- Join of `["", "", comment, suppression, X].join(newline)` minus the
trailing import text `X`: the block both fix recipes insert after the
last import declaration. -/
def importComment : String :=
  "\n\n// keep this import separate from other imports to reduce chance for merge conflicts with v2-main\n// eslint-disable-next-line no-duplicate-imports, import/order\n"

/-- The aliased import statement synthesized by the qualifier fix. -/
def aliasedCoreImport : String :=
  "import \x7b Construct as CoreConstruct \x7d from \x27@aws-cdk/core\x27;"

/-- The plain import statement synthesized by the qualifier fix. -/
def plainCoreImport : String :=
  "import \x7b Construct \x7d from \x27@aws-cdk/core\x27;"

/-- The aliased import statement synthesized by the isolation fix (the
source builds this one without a trailing semicolon). -/
def isolationCoreImport : String :=
  "import \x7b Construct as CoreConstruct \x7d from \x27@aws-cdk/core\x27"

/-- Current file slice of the cache:
`importCache.imports.filter(x => x.fileName === context.getFilename())`. -/
def cacheSlice (st : RuleState) (fileName : String) : List ImportCacheRecord :=
  st.imports.filter (fun x => x.fileName == fileName)

/-- Mirrors the local `findImport` closure: first record of the given file
slice whose composite `localName` key matches. -/
def findImport (imports : List ImportCacheRecord) (x : String) : Option ImportCacheRecord :=
  imports.find? (fun i => i.localName == x)

/-- The if/else chain of `report` deciding `replaceBy` and `addImport` from
the three composite-key lookups, in source order. -/
def qualifierDecision (imports : List ImportCacheRecord) : String × Option String :=
  match findImport imports "@aws-cdk/core.Construct" with
  | some _ => ("Construct", none)
  | none =>
    match findImport imports "@aws-cdk/core.CoreConstruct" with
    | some _ => ("CoreConstruct", none)
    | none =>
      match findImport imports "constructs.Construct" with
      | some _ => ("CoreConstruct", some aliasedCoreImport)
      | none => ("Construct", some plainCoreImport)

/-- The `report` function: builds the qualified-reference violation report.
The fix always replaces the violating range by the chosen name; when a
new import is needed it is inserted after the last recorded import of the
file, and skipped entirely when the file has no recorded import
(`if (lastImport)`). -/
def report (fileName : String) (st : RuleState) (node : Nat) (replaceRange : Range) : Report :=
  let imports := cacheSlice st fileName
  let dec := qualifierDecision imports
  let fixes := [Fix.replaceRange replaceRange dec.1]
  let fixes :=
    match dec.2 with
    | some addImport =>
      match imports.getLast? with
      | some lastImport => fixes ++ [Fix.insertTextAfter lastImport.importNode (importComment ++ addImport)]
      | none => fixes
    | none => fixes
  { message := qualifierViolationMessage, node := node, fix := some fixes }

/-- The `reportImportOrderViolations` function: when a pending isolation
violation exists, report it with a fix that removes the stored range and
inserts the standalone aliased import after the last recorded import of the
file.  The source dereferences `imports[imports.length - 1].importNode`
without a guard; `fix = none` models the TypeError thrown when that slice
is empty. -/
def reportImportOrderViolations (fileName : String) (st : RuleState) : List Report :=
  match st.importOrderViolation with
  | some violation =>
    [{ message := isolationViolationMessage,
       node := violation.node.id,
       fix :=
         match (cacheSlice st fileName).getLast? with
         | some lastImport =>
           some [Fix.removeRange violation.range,
                 Fix.insertTextAfter lastImport.importNode (importComment ++ isolationCoreImport)]
         | none => none }]
  | none => []

/-- A member expression used as a superclass (`xxx.Construct`): the object
(qualifier) name, the property name when the property is an identifier
(`baseClass`), and the expression range. -/
structure MemberExpr where
  objectName : String
  propName : Option String
  range : Range
deriving DecidableEq, Repr

/-- Superclass shapes distinguished by the `ClassDeclaration` handler. -/
inductive SuperClass where
  | member (m : MemberExpr)
  | nonMember
deriving DecidableEq, Repr

/-- A `ClassDeclaration` node. -/
structure ClassDecl where
  id : Nat
  superClass : Option SuperClass
deriving DecidableEq, Repr

/-- The `typeName` of a TS type annotation: `TSQualifiedName` with an
identifier on the left, or a simple name. -/
inductive TSTypeName where
  | qualified (left : String) (right : String)
  | simple (name : String)
deriving DecidableEq, Repr

/-- The inner `typeAnnotation.typeAnnotation` node of an identifier. -/
structure TypeAnnotation where
  typeName : Option TSTypeName
  range : Range
deriving DecidableEq, Repr

/-- An `Identifier` node, possibly carrying a type annotation. -/
structure IdentNode where
  id : Nat
  name : String
  typeAnnotation : Option TypeAnnotation
deriving DecidableEq, Repr

/-- Visit events delivered by the host traversal, one per registered
visitor of the rule. -/
inductive Event where
  | program
  | importDeclaration (d : ImportDecl)
  | classDeclaration (c : ClassDecl)
  | identifier (n : IdentNode)
deriving DecidableEq, Repr

/-- The range stored for an isolation violation: the own range of the
offending specifier when it is last (`rest = []`), otherwise from its start
to the start of the next specifier
(`[s.range[0], node.specifiers[i + 1].range![0]]`). -/
def violationRange (s : Spec) (rest : List Spec) : Range :=
  match rest with
  | [] => specRange s
  | next :: _ => ((specRange s).1, (specRange next).1)

/-- The cache record written by `importCache.record` for one specifier. -/
def specRecord (fileName : String) (d : ImportDecl) (s : Spec) : ImportCacheRecord :=
  { fileName := fileName
    typeName := specTypeName s
    importNode := d
    localName := d.source ++ "." ++ specLocalName s }

/-- The `for (const [i, s] of node.specifiers.entries())` loop of the
`ImportDeclaration` handler, written structurally: the current specifier is
last exactly when the remaining list is empty, and `specifiers[i + 1]` is
the head of the remaining list.  Each iteration possibly overwrites the
pending isolation violation, then records the binding. -/
def importSpecLoop (fileName : String) (d : ImportDecl) : List Spec → RuleState → RuleState
  | [], st => st
  | s :: rest, st =>
    let st1 :=
      if specLocalName s = "CoreConstruct" ∧ d.specifiers.length > 1 then
        { st with importOrderViolation := some { node := d, range := violationRange s rest } }
      else st
    let st2 := { st1 with imports := st1.imports ++ [specRecord fileName d s] }
    importSpecLoop fileName d rest st2

/-- One visitor invocation: the four handlers returned by `create`. -/
def handleEvent (fileName : String) (st : RuleState) : Event → RuleState × List Report
  | .program => ({ st with importOrderViolation := none }, [])
  | .importDeclaration d => (importSpecLoop fileName d d.specifiers st, [])
  | .classDeclaration c =>
    match c.superClass with
    | some (.member m) =>
      (st,
        (if m.propName = some "Construct" then [report fileName st c.id m.range] else []) ++
        (if m.propName = some "CoreConstruct" then reportImportOrderViolations fileName st else []))
    | _ => (st, [])
  | .identifier n =>
    let qualReports :=
      match n.typeAnnotation with
      | some ta =>
        match ta.typeName with
        | some (.qualified left right) =>
          if right = "Construct" ∧ left ≠ "constructs" then [report fileName st n.id ta.range]
          else []
        | _ => []
      | none => []
    (st, qualReports ++ (if n.name = "CoreConstruct" then reportImportOrderViolations fileName st else []))

/-- Process a file event stream in document order, accumulating reports. -/
def processEvents (fileName : String) : RuleState → List Event → RuleState × List Report
  | st, [] => (st, [])
  | st, e :: es =>
    let r1 := handleEvent fileName st e
    let r2 := processEvents fileName r1.1 es
    (r2.1, r1.2 ++ r2.2)

/-- One file: its name (`context.getFilename()`) and its visit events. -/
structure File where
  fileName : String
  events : List Event
deriving DecidableEq, Repr

/-- Mirrors `String.prototype.includes`: substring containment. -/
def strIncludes (s pat : String) : Bool :=
  decide (pat.toList <:+: s.toList)

/-- Process one file: `create` returns an empty listener object when the
file name contains `@aws-cdk/core`, so such a file changes nothing and
reports nothing; otherwise every event is dispatched to the handlers. -/
def processFile (st : RuleState) (f : File) : RuleState × List Report :=
  if strIncludes f.fileName "@aws-cdk/core" then (st, [])
  else processEvents f.fileName st f.events

/-- Derived description of what the specifier loop leaves in the pending
slot: the violation of the last specifier named `CoreConstruct` (when the
declaration has more than one specifier), if any. -/
def lastCoreConstructViolation (d : ImportDecl) : List Spec → Option ImportOrderViolation
  | [] => none
  | s :: rest =>
    match lastCoreConstructViolation d rest with
    | some v => some v
    | none =>
      if specLocalName s = "CoreConstruct" ∧ d.specifiers.length > 1 then
        some { node := d, range := violationRange s rest }
      else none

/-- Text of a range in a source string. -/
def rangeText (s : String) (r : Range) : String :=
  ((s.toList.drop r.1).take (r.2 - r.1)).asString

/-- Source string with a range deleted, as `fixer.removeRange` would leave it. -/
def removeRangeText (s : String) (r : Range) : String :=
  ((s.toList.take r.1) ++ (s.toList.drop r.2)).asString

/-- Events are an alias usage when they flush the pending isolation
violation: a class extending a member expression whose property is named
`CoreConstruct`, or an identifier named `CoreConstruct`. -/
def isAliasUsage : Event → Bool
  | .classDeclaration c =>
    match c.superClass with
    | some (.member m) => m.propName == some "CoreConstruct"
    | _ => false
  | .identifier n => n.name == "CoreConstruct"
  | _ => false

/-! Helper lemmas about the specifier loop, the cache slice and the two
report builders. -/

/-- The specifier loop appends exactly one cache record per specifier, in
order, to the global cache. -/
theorem importSpecLoop_imports (fileName : String) (d : ImportDecl) (l : List Spec) :
    ∀ st : RuleState,
      (importSpecLoop fileName d l st).imports = st.imports ++ l.map (specRecord fileName d) := by
  induction l with
  | nil => intro st; simp [importSpecLoop]
  | cons s rest ih =>
    intro st
    simp only [importSpecLoop, List.map_cons]
    rw [ih]
    split <;> simp

/-- The pending slot left by the specifier loop: the violation of the most
recent qualifying specifier when one exists, otherwise the incoming value. -/
theorem importSpecLoop_violation (fileName : String) (d : ImportDecl) (l : List Spec) :
    ∀ st : RuleState,
      (importSpecLoop fileName d l st).importOrderViolation =
        match lastCoreConstructViolation d l with
        | some v => some v
        | none => st.importOrderViolation := by
  induction l with
  | nil => intro st; simp [importSpecLoop, lastCoreConstructViolation]
  | cons s rest ih =>
    intro st
    simp only [importSpecLoop, lastCoreConstructViolation]
    rw [ih]
    cases h : lastCoreConstructViolation d rest with
    | some v => simp [h]
    | none =>
      simp only [h]
      by_cases hc : specLocalName s = "CoreConstruct" ∧ d.specifiers.length > 1 <;> simp [hc]

/-- A list without a specifier named CoreConstruct yields no violation. -/
theorem lastCoreConstructViolation_of_no_alias (d : ImportDecl) (l : List Spec)
    (h : ∀ t ∈ l, specLocalName t ≠ "CoreConstruct") :
    lastCoreConstructViolation d l = none := by
  induction l with
  | nil => rfl
  | cons s rest ih =>
    simp only [lastCoreConstructViolation]
    rw [ih (fun t ht => h t (List.mem_cons_of_mem s ht))]
    have hs := h s (List.mem_cons_self s rest)
    simp [hs]

/-- Later specifiers take priority: a violation arising in a suffix is the
violation of the whole list. -/
theorem lastCoreConstructViolation_append_of_some (d : ImportDecl) (a b : List Spec)
    (v : ImportOrderViolation) (h : lastCoreConstructViolation d b = some v) :
    lastCoreConstructViolation d (a ++ b) = some v := by
  induction a with
  | nil => simpa using h
  | cons s rest ih =>
    simp only [List.cons_append, lastCoreConstructViolation, List.append_eq]
    rw [ih]

/-- A specifier list yielding a violation is non-empty. -/
theorem lastCoreConstructViolation_ne_nil (d : ImportDecl) (l : List Spec) (v : ImportOrderViolation)
    (h : lastCoreConstructViolation d l = some v) : l ≠ [] := by
  intro hl
  subst hl
  simp [lastCoreConstructViolation] at h

/-- Every qualifier-violation report carries the qualifier message. -/
theorem report_message (fileName : String) (st : RuleState) (node : Nat) (r : Range) :
    (report fileName st node r).message = qualifierViolationMessage := rfl

/-- The qualifier-violation fix is always built (it always contains at
least the replacement edit). -/
theorem report_fix_isSome (fileName : String) (st : RuleState) (node : Nat) (r : Range) :
    (report fileName st node r).fix.isSome = true := by
  unfold report
  cases (qualifierDecision (cacheSlice st fileName)).2 with
  | none => rfl
  | some t => cases (cacheSlice st fileName).getLast? <;> rfl

/-- Every isolation-violation report carries the isolation message. -/
theorem reportImportOrderViolations_message (fileName : String) (st : RuleState) (rep : Report)
    (h : rep ∈ reportImportOrderViolations fileName st) :
    rep.message = isolationViolationMessage := by
  unfold reportImportOrderViolations at h
  split at h
  · rw [List.mem_singleton] at h
    subst h
    rfl
  · simp at h

/-- The two report messages differ. -/
theorem qualifier_ne_isolation_message :
    qualifierViolationMessage ≠ isolationViolationMessage := by decide

/-- The isolation fix builder succeeds whenever the current file slice of
the cache is non-empty. -/
theorem reportImportOrderViolations_fix_isSome (fileName : String) (st : RuleState)
    (hinv : st.importOrderViolation.isSome = true → cacheSlice st fileName ≠ []) :
    ∀ rep ∈ reportImportOrderViolations fileName st, rep.fix.isSome = true := by
  intro rep h
  unfold reportImportOrderViolations at h
  split at h
  case h_1 v heq =>
    have hs : st.importOrderViolation.isSome = true := by rw [heq]; rfl
    have hne := hinv hs
    obtain ⟨a, ha⟩ := Option.isSome_iff_exists.mp (List.getLast?_isSome.mpr hne)
    rw [List.mem_singleton] at h
    subst h
    simp [ha]
  case h_2 => simp at h

/-- The qualifier-violation report reads nothing of the state beyond the
current file slice of the cache. -/
theorem report_congr (fileName : String) (st1 st2 : RuleState) (node : Nat) (r : Range)
    (h : cacheSlice st1 fileName = cacheSlice st2 fileName) :
    report fileName st1 node r = report fileName st2 node r := by
  unfold report
  rw [h]

/-- The isolation-violation reporter reads nothing of the state beyond the
pending slot and the current file slice of the cache. -/
theorem reportImportOrderViolations_congr (fileName : String) (st1 st2 : RuleState)
    (h : cacheSlice st1 fileName = cacheSlice st2 fileName)
    (hv : st1.importOrderViolation = st2.importOrderViolation) :
    reportImportOrderViolations fileName st1 = reportImportOrderViolations fileName st2 := by
  unfold reportImportOrderViolations
  rw [h, hv]

/-- Every record written by the specifier loop is tagged with the current
file, so the file slice grows by exactly those records. -/
theorem cacheSlice_importSpecLoop (fileName : String) (d : ImportDecl) (l : List Spec)
    (st : RuleState) :
    cacheSlice (importSpecLoop fileName d l st) fileName =
      cacheSlice st fileName ++ l.map (specRecord fileName d) := by
  unfold cacheSlice
  rw [importSpecLoop_imports, List.filter_append]
  congr 1
  rw [List.filter_eq_self]
  intro a ha
  obtain ⟨s, _, rfl⟩ := List.mem_map.mp ha
  simp [specRecord]

/-- Resetting or setting the pending slot leaves the cache alone. -/
theorem cacheSlice_set_violation (st : RuleState) (fileName : String)
    (v : Option ImportOrderViolation) :
    cacheSlice { st with importOrderViolation := v } fileName = cacheSlice st fileName := rfl

/-- One handler invocation is insensitive to cache records of other files:
with equal file slices and equal pending slots, the two runs report the
same violations and leave equal file slices and equal pending slots. -/
theorem handleEvent_congr (fileName : String) (e : Event) (st1 st2 : RuleState)
    (h : cacheSlice st1 fileName = cacheSlice st2 fileName)
    (hv : st1.importOrderViolation = st2.importOrderViolation) :
    (handleEvent fileName st1 e).2 = (handleEvent fileName st2 e).2 ∧
    cacheSlice (handleEvent fileName st1 e).1 fileName =
      cacheSlice (handleEvent fileName st2 e).1 fileName ∧
    (handleEvent fileName st1 e).1.importOrderViolation =
      (handleEvent fileName st2 e).1.importOrderViolation := by
  cases e with
  | program => exact ⟨rfl, h, rfl⟩
  | importDeclaration d =>
    refine ⟨rfl, ?_, ?_⟩
    · show cacheSlice (importSpecLoop fileName d d.specifiers st1) fileName =
        cacheSlice (importSpecLoop fileName d d.specifiers st2) fileName
      rw [cacheSlice_importSpecLoop, cacheSlice_importSpecLoop, h]
    · show (importSpecLoop fileName d d.specifiers st1).importOrderViolation =
        (importSpecLoop fileName d d.specifiers st2).importOrderViolation
      rw [importSpecLoop_violation, importSpecLoop_violation, hv]
  | classDeclaration c =>
    cases hsc : c.superClass with
    | none =>
      exact ⟨by simp [handleEvent, hsc], by simp [handleEvent, hsc, cacheSlice] at h ⊢; exact h,
        by simp [handleEvent, hsc]; exact hv⟩
    | some sc =>
      cases sc with
      | nonMember =>
        exact ⟨by simp [handleEvent, hsc], by simp [handleEvent, hsc, cacheSlice] at h ⊢; exact h,
          by simp [handleEvent, hsc]; exact hv⟩
      | member m =>
        refine ⟨?_, ?_, ?_⟩
        · simp only [handleEvent, hsc]
          rw [report_congr fileName st1 st2 c.id m.range h,
            reportImportOrderViolations_congr fileName st1 st2 h hv]
        · simp only [handleEvent, hsc]
          exact h
        · simp only [handleEvent, hsc]
          exact hv
  | identifier n =>
    refine ⟨?_, ?_, ?_⟩
    · simp only [handleEvent]
      rw [reportImportOrderViolations_congr fileName st1 st2 h hv]
      cases n.typeAnnotation with
      | none => rfl
      | some ta =>
        dsimp only
        cases hq : ta.typeName with
        | none => rfl
        | some t =>
          cases t with
          | simple a => rfl
          | qualified l r =>
            dsimp only
            by_cases hc : r = "Construct" ∧ l ≠ "constructs"
            · rw [if_pos hc, if_pos hc, report_congr fileName st1 st2 n.id ta.range h]
            · rw [if_neg hc, if_neg hc]
    · exact h
    · exact hv

/-- Event-stream version of `handleEvent_congr`. -/
theorem processEvents_congr (fileName : String) (es : List Event) :
    ∀ st1 st2 : RuleState,
      cacheSlice st1 fileName = cacheSlice st2 fileName →
      st1.importOrderViolation = st2.importOrderViolation →
      (processEvents fileName st1 es).2 = (processEvents fileName st2 es).2 ∧
      cacheSlice (processEvents fileName st1 es).1 fileName =
        cacheSlice (processEvents fileName st2 es).1 fileName ∧
      (processEvents fileName st1 es).1.importOrderViolation =
        (processEvents fileName st2 es).1.importOrderViolation := by
  induction es with
  | nil => intro st1 st2 h hv; exact ⟨rfl, h, hv⟩
  | cons e es ih =>
    intro st1 st2 h hv
    obtain ⟨hr, hc, hs⟩ := handleEvent_congr fileName e st1 st2 h hv
    obtain ⟨hr2, hc2, hs2⟩ := ih (handleEvent fileName st1 e).1 (handleEvent fileName st2 e).1 hc hs
    refine ⟨?_, ?_, ?_⟩
    · show (handleEvent fileName st1 e).2 ++ (processEvents fileName (handleEvent fileName st1 e).1 es).2 =
        (handleEvent fileName st2 e).2 ++ (processEvents fileName (handleEvent fileName st2 e).1 es).2
      rw [hr, hr2]
    · exact hc2
    · exact hs2

/-- The class-declaration handler never mutates the state. -/
theorem handleEvent_classDecl_fst (fileName : String) (st : RuleState) (c : ClassDecl) :
    (handleEvent fileName st (Event.classDeclaration c)).1 = st := by
  simp only [handleEvent]
  cases c.superClass with
  | none => rfl
  | some sc => cases sc <;> rfl

/-- The identifier handler never mutates the state. -/
theorem handleEvent_identifier_fst (fileName : String) (st : RuleState) (n : IdentNode) :
    (handleEvent fileName st (Event.identifier n)).1 = st := rfl

/-- Handlers preserve the anchor invariant: a set pending slot implies a
non-empty file slice of the cache. -/
theorem handleEvent_anchor_invariant (fileName : String) (e : Event) (st : RuleState)
    (hinv : st.importOrderViolation.isSome = true → cacheSlice st fileName ≠ []) :
    (handleEvent fileName st e).1.importOrderViolation.isSome = true →
      cacheSlice (handleEvent fileName st e).1 fileName ≠ [] := by
  cases e with
  | program => intro hs; exact absurd hs (by simp [handleEvent])
  | importDeclaration d =>
    intro hs
    have hs2 : (importSpecLoop fileName d d.specifiers st).importOrderViolation.isSome = true := hs
    show cacheSlice (importSpecLoop fileName d d.specifiers st) fileName ≠ []
    rw [cacheSlice_importSpecLoop]
    rw [importSpecLoop_violation] at hs2
    intro hcontra
    rw [List.append_eq_nil] at hcontra
    cases hv : lastCoreConstructViolation d d.specifiers with
    | some v =>
      have hne := lastCoreConstructViolation_ne_nil d d.specifiers v hv
      exact hne (List.map_eq_nil_iff.mp hcontra.2)
    | none =>
      rw [hv] at hs2
      exact hinv hs2 hcontra.1
  | classDeclaration c =>
    rw [handleEvent_classDecl_fst]
    exact hinv
  | identifier n =>
    rw [handleEvent_identifier_fst]
    exact hinv

/-- Every report produced by a handler under the anchor invariant has a
successfully built fix. -/
theorem handleEvent_fix_isSome (fileName : String) (e : Event) (st : RuleState)
    (hinv : st.importOrderViolation.isSome = true → cacheSlice st fileName ≠ []) :
    ∀ rep ∈ (handleEvent fileName st e).2, rep.fix.isSome = true := by
  cases e with
  | program => intro rep h; exact absurd h (List.not_mem_nil rep)
  | importDeclaration d => intro rep h; exact absurd h (List.not_mem_nil rep)
  | classDeclaration c =>
    intro rep h
    simp only [handleEvent] at h
    cases hsc : c.superClass with
    | none => rw [hsc] at h; simp at h
    | some sc =>
      cases sc with
      | nonMember => rw [hsc] at h; simp at h
      | member m =>
        rw [hsc] at h
        dsimp only at h
        rcases List.mem_append.mp h with h1 | h2
        · by_cases hp : m.propName = some "Construct"
          · rw [if_pos hp, List.mem_singleton] at h1
            subst h1
            exact report_fix_isSome fileName st c.id m.range
          · rw [if_neg hp] at h1
            exact absurd h1 (List.not_mem_nil rep)
        · by_cases hp : m.propName = some "CoreConstruct"
          · rw [if_pos hp] at h2
            exact reportImportOrderViolations_fix_isSome fileName st hinv rep h2
          · rw [if_neg hp] at h2
            exact absurd h2 (List.not_mem_nil rep)
  | identifier n =>
    intro rep h
    simp only [handleEvent] at h
    rcases List.mem_append.mp h with h1 | h2
    · cases hta : n.typeAnnotation with
      | none => rw [hta] at h1; exact absurd h1 (List.not_mem_nil rep)
      | some ta =>
        rw [hta] at h1
        dsimp only at h1
        cases hq : ta.typeName with
        | none => rw [hq] at h1; exact absurd h1 (List.not_mem_nil rep)
        | some t =>
          rw [hq] at h1
          cases t with
          | simple a => exact absurd h1 (List.not_mem_nil rep)
          | qualified l r =>
            dsimp only at h1
            by_cases hc : r = "Construct" ∧ l ≠ "constructs"
            · rw [if_pos hc, List.mem_singleton] at h1
              subst h1
              exact report_fix_isSome fileName st n.id ta.range
            · rw [if_neg hc] at h1
              exact absurd h1 (List.not_mem_nil rep)
    · by_cases hn : n.name = "CoreConstruct"
      · rw [if_pos hn] at h2
        exact reportImportOrderViolations_fix_isSome fileName st hinv rep h2
      · rw [if_neg hn] at h2
        exact absurd h2 (List.not_mem_nil rep)

/-- Under the hypothesis that no event of the stream is an alias usage, no
handler emits an isolation report. -/
theorem handleEvent_no_usage_message (fileName : String) (e : Event) (st : RuleState)
    (husage : isAliasUsage e = false) :
    ∀ rep ∈ (handleEvent fileName st e).2, rep.message = qualifierViolationMessage := by
  cases e with
  | program => intro rep h; exact absurd h (List.not_mem_nil rep)
  | importDeclaration d => intro rep h; exact absurd h (List.not_mem_nil rep)
  | classDeclaration c =>
    intro rep h
    simp only [handleEvent] at h
    cases hsc : c.superClass with
    | none => rw [hsc] at h; simp at h
    | some sc =>
      cases sc with
      | nonMember => rw [hsc] at h; simp at h
      | member m =>
        rw [hsc] at h
        dsimp only at h
        have hp2 : ¬ m.propName = some "CoreConstruct" := by
          simp only [isAliasUsage, hsc] at husage
          intro hcontra
          rw [hcontra] at husage
          simp at husage
        rw [if_neg hp2, List.append_nil] at h
        by_cases hp : m.propName = some "Construct"
        · rw [if_pos hp, List.mem_singleton] at h
          subst h
          rfl
        · rw [if_neg hp] at h
          exact absurd h (List.not_mem_nil rep)
  | identifier n =>
    intro rep h
    simp only [handleEvent] at h
    have hn : ¬ n.name = "CoreConstruct" := by
      simp only [isAliasUsage] at husage
      intro hcontra
      rw [hcontra] at husage
      simp at husage
    rw [if_neg hn, List.append_nil] at h
    cases hta : n.typeAnnotation with
    | none => rw [hta] at h; exact absurd h (List.not_mem_nil rep)
    | some ta =>
      rw [hta] at h
      dsimp only at h
      cases hq : ta.typeName with
      | none => rw [hq] at h; exact absurd h (List.not_mem_nil rep)
      | some t =>
        rw [hq] at h
        cases t with
        | simple a => exact absurd h (List.not_mem_nil rep)
        | qualified l r =>
          dsimp only at h
          by_cases hc : r = "Construct" ∧ l ≠ "constructs"
          · rw [if_pos hc, List.mem_singleton] at h
            subst h
            rfl
          · rw [if_neg hc] at h
            exact absurd h (List.not_mem_nil rep)

/-! Claim C1: the qualifier-violation decision table. -/

/-- A file that binds the canonical name, the alias name (both from the
canonical module) and the peer-module canonical name, then extends a
member-qualified Construct. -/
def c1File : File :=
  { fileName := "a.ts",
    events := [
      .program,
      .importDeclaration { id := 1, source := "@aws-cdk/core", specifiers := [.named "Construct" "Construct" (9, 18)] },
      .importDeclaration { id := 2, source := "@aws-cdk/core", specifiers := [.named "Construct" "CoreConstruct" (50, 75)] },
      .importDeclaration { id := 3, source := "constructs", specifiers := [.named "Construct" "Construct" (100, 109)] },
      .classDeclaration { id := 4, superClass := some (.member { objectName := "foo", propName := some "Construct", range := (150, 163) }) }
    ] }

set_option maxRecDepth 8000 in
/-- C1, counterexample: in a file that holds a canonical-module binding of
the alias name and a peer-module binding of the canonical name, but also a
canonical-module binding of the canonical name, the fix replaces with the
canonical name, not the alias name, so the final sentence of the claim
fails as stated. -/
theorem c1_counterexample :
    (findImport (cacheSlice (processFile initialState c1File).1 "a.ts") "@aws-cdk/core.CoreConstruct").isSome = true ∧
    (findImport (cacheSlice (processFile initialState c1File).1 "a.ts") "constructs.Construct").isSome = true ∧
    (processFile initialState c1File).2 =
      [{ message := qualifierViolationMessage, node := 4,
         fix := some [Fix.replaceRange (150, 163) "Construct"] }] ∧
    (processFile initialState c1File).2 ≠
      [{ message := qualifierViolationMessage, node := 4,
         fix := some [Fix.replaceRange (150, 163) "CoreConstruct"] }] := by
  refine ⟨by decide, by decide, by decide, by decide⟩

/-- C1 (amended): the replacement name and need-for-new-import follow the
three composite-key lookups in priority order canonical-module.Construct,
canonical-module.CoreConstruct, constructs.Construct: the first success
gives the canonical name with no import, the second the alias name with no
import, the third the alias name plus a new aliased import, and no success
gives the canonical name plus a new plain import.  The priority sentence
holds once the canonical-module binding of the canonical name is absent:
then a canonical-module alias-name binding beats a peer-module binding of
the canonical name. -/
theorem c1_decision_table (L : List ImportCacheRecord) :
    ((findImport L "@aws-cdk/core.Construct").isSome = true →
      qualifierDecision L = ("Construct", none)) ∧
    (findImport L "@aws-cdk/core.Construct" = none →
      (findImport L "@aws-cdk/core.CoreConstruct").isSome = true →
      qualifierDecision L = ("CoreConstruct", none)) ∧
    (findImport L "@aws-cdk/core.Construct" = none →
      findImport L "@aws-cdk/core.CoreConstruct" = none →
      (findImport L "constructs.Construct").isSome = true →
      qualifierDecision L = ("CoreConstruct", some aliasedCoreImport)) ∧
    (findImport L "@aws-cdk/core.Construct" = none →
      findImport L "@aws-cdk/core.CoreConstruct" = none →
      findImport L "constructs.Construct" = none →
      qualifierDecision L = ("Construct", some plainCoreImport)) ∧
    (findImport L "@aws-cdk/core.Construct" = none →
      (findImport L "@aws-cdk/core.CoreConstruct").isSome = true →
      (findImport L "constructs.Construct").isSome = true →
      qualifierDecision L = ("CoreConstruct", none)) := by
  unfold qualifierDecision
  cases h1 : findImport L "@aws-cdk/core.Construct" with
  | some r => simp [h1]
  | none =>
    cases h2 : findImport L "@aws-cdk/core.CoreConstruct" with
    | some r => simp [h1, h2]
    | none =>
      cases h3 : findImport L "constructs.Construct" with
      | some r => simp [h1, h2, h3]
      | none => simp [h1, h2, h3]

/-- Import declaration node used by the C1 witness records. -/
def c1WitnessImport : ImportDecl := { id := 11, source := "@aws-cdk/core", specifiers := [] }

/-- A canonical-module binding of the alias name. -/
def c1WitnessAliasRec : ImportCacheRecord :=
  { fileName := "w1.ts", typeName := "Construct", importNode := c1WitnessImport,
    localName := "@aws-cdk/core.CoreConstruct" }

/-- A peer-module binding of the canonical name. -/
def c1WitnessPeerRec : ImportCacheRecord :=
  { fileName := "w1.ts", typeName := "Construct", importNode := c1WitnessImport,
    localName := "constructs.Construct" }

/-- C1 witness: with the alias-name binding and the peer binding present
and the canonical-module canonical binding absent, the decision is the
alias name with no new import. -/
theorem c1_decision_table_witness :
    qualifierDecision [c1WitnessAliasRec, c1WitnessPeerRec] = ("CoreConstruct", none) :=
  (c1_decision_table [c1WitnessAliasRec, c1WitnessPeerRec]).2.2.2.2 (by decide) (by decide)
    (by decide)

/-! Claim C2: the isolation-violation delete range. -/

/-- Source text `import \x7b A, CoreConstruct \x7d from \x27m\x27` with the
alias specifier last. -/
def c2Src : String := "import \x7b A, CoreConstruct \x7d from \x27m\x27"

/-- The import declaration parsed from `c2Src`. -/
def c2Decl : ImportDecl :=
  { id := 1, source := "m",
    specifiers := [.named "A" "A" (9, 10), .named "CoreConstruct" "CoreConstruct" (12, 25)] }

/-- C2, counterexample: when the alias specifier is last, the recorded
delete range is the own range of the specifier, which removes exactly
`CoreConstruct` and leaves the preceding separator in place; the claim
instead requires `, CoreConstruct` to be removed. -/
theorem c2_counterexample :
    (handleEvent "f.ts" initialState (Event.importDeclaration c2Decl)).1.importOrderViolation =
      some { node := c2Decl, range := (12, 25) } ∧
    rangeText c2Src (12, 25) = "CoreConstruct" ∧
    rangeText c2Src (10, 25) = ", CoreConstruct" ∧
    removeRangeText c2Src (12, 25) = "import \x7b A,  \x7d from \x27m\x27" := by
  refine ⟨by decide, by decide, by decide, by decide⟩

/-- C2 (amended): for an import declaration with more than one specifier
whose most recent specifier with local name CoreConstruct is `s` followed
by `post`, the recorded delete range is the own range of `s` when `s` is
last (removing only the specifier text, leaving the separator), and
otherwise spans from the start of `s` to the start of the next specifier
(removing the specifier text plus the trailing separator), never touching
the text of the other specifiers. -/
theorem c2_isolation_delete_range (fileName : String) (st : RuleState) (d : ImportDecl)
    (pre post : List Spec) (s : Spec)
    (hspec : d.specifiers = pre ++ s :: post)
    (hlen : d.specifiers.length > 1)
    (hs : specLocalName s = "CoreConstruct")
    (hpost : ∀ t ∈ post, specLocalName t ≠ "CoreConstruct") :
    (post = [] →
      (handleEvent fileName st (Event.importDeclaration d)).1.importOrderViolation =
        some { node := d, range := specRange s }) ∧
    (∀ (next : Spec) (rest2 : List Spec), post = next :: rest2 →
      (handleEvent fileName st (Event.importDeclaration d)).1.importOrderViolation =
        some { node := d, range := ((specRange s).1, (specRange next).1) }) := by
  have key : (handleEvent fileName st (Event.importDeclaration d)).1.importOrderViolation =
      some { node := d, range := violationRange s post } := by
    show (importSpecLoop fileName d d.specifiers st).importOrderViolation = _
    rw [importSpecLoop_violation]
    have hcons : lastCoreConstructViolation d (s :: post) =
        some { node := d, range := violationRange s post } := by
      simp only [lastCoreConstructViolation]
      rw [lastCoreConstructViolation_of_no_alias d post hpost]
      simp [hs, hlen]
    rw [hspec, lastCoreConstructViolation_append_of_some d pre (s :: post) _ hcons]
  constructor
  · intro hnil
    rw [key, hnil]
    rfl
  · intro next rest2 hcons2
    rw [key, hcons2]
    rfl

/-- Source text `import \x7b A, CoreConstruct, B \x7d from \x27m\x27` with
the alias specifier in the middle. -/
def c2MidSrc : String := "import \x7b A, CoreConstruct, B \x7d from \x27m\x27"

/-- The import declaration parsed from `c2MidSrc`. -/
def c2MidDecl : ImportDecl :=
  { id := 2, source := "m",
    specifiers := [.named "A" "A" (9, 10), .named "CoreConstruct" "CoreConstruct" (12, 25),
                   .named "B" "B" (27, 28)] }

/-- C2 witness: on the combined import `import \x7b A, CoreConstruct, B
\x7d from \x27m\x27` the recorded range removes exactly `CoreConstruct, `,
leaving the text of A and B intact. -/
theorem c2_isolation_delete_range_witness :
    (handleEvent "f.ts" initialState (Event.importDeclaration c2MidDecl)).1.importOrderViolation =
      some { node := c2MidDecl, range := (12, 27) } ∧
    rangeText c2MidSrc (12, 27) = "CoreConstruct, " ∧
    removeRangeText c2MidSrc (12, 27) = "import \x7b A, B \x7d from \x27m\x27" := by
  refine ⟨?_, by decide, by decide⟩
  have h := c2_isolation_delete_range "f.ts" initialState c2MidDecl
    [Spec.named "A" "A" (9, 10)] [Spec.named "B" "B" (27, 28)]
    (Spec.named "CoreConstruct" "CoreConstruct" (12, 25)) rfl (by decide) rfl (by decide)
  exact h.2 (Spec.named "B" "B" (27, 28)) [] rfl

/-! Claim C3: qualifier fix in a file with zero recorded imports. -/

/-- Identifier annotated `cdk.Construct` in a file with no imports. -/
def c3Ident : IdentNode :=
  { id := 7, name := "x",
    typeAnnotation := some { typeName := some (.qualified "cdk" "Construct"), range := (30, 42) } }

set_option maxRecDepth 8000 in
/-- C3, counterexample: with zero recorded imports and a decision that
requires a new import, the generated fix is not empty: it still contains
the replacement edit; only the insertion is omitted. -/
theorem c3_counterexample :
    (handleEvent "f.ts" initialState (Event.identifier c3Ident)).2 =
      [{ message := qualifierViolationMessage, node := 7,
         fix := some [Fix.replaceRange (30, 42) "Construct"] }] ∧
    (qualifierDecision (cacheSlice initialState "f.ts")).2 = some plainCoreImport ∧
    (handleEvent "f.ts" initialState (Event.identifier c3Ident)).2 ≠
      [{ message := qualifierViolationMessage, node := 7, fix := some [] }] := by
  refine ⟨by decide, by decide, by decide⟩

/-- C3 (amended): for a qualifier violation in a file with zero
recorded import declarations, no insertion edit is generated even though
the decision requires a new import; the violation is reported with a fix
holding only the replacement edit, leaving the import to manual
resolution. -/
theorem c3_no_insertion_without_imports (fileName : String) (st : RuleState) (node : Nat)
    (r : Range) (h : cacheSlice st fileName = []) :
    report fileName st node r =
      { message := qualifierViolationMessage, node := node,
        fix := some [Fix.replaceRange r "Construct"] } := by
  unfold report
  rw [h]
  rfl

/-- C3 witness: a fresh state has an empty slice for any file, and the
report built there carries exactly the replacement edit. -/
theorem c3_no_insertion_without_imports_witness :
    cacheSlice initialState "w3.ts" = [] ∧
    report "w3.ts" initialState 3 (5, 9) =
      { message := qualifierViolationMessage, node := 3,
        fix := some [Fix.replaceRange (5, 9) "Construct"] } :=
  ⟨rfl, c3_no_insertion_without_imports "w3.ts" initialState 3 (5, 9) rfl⟩

/-! Claim C4: class declarations extending a member-qualified Construct. -/

/-- Member expression `constructs.Construct` used as a superclass. -/
def c4CexMember : MemberExpr :=
  { objectName := "constructs", propName := some "Construct", range := (40, 60) }

/-- Class declaration extending `constructs.Construct`. -/
def c4CexClass : ClassDecl := { id := 4, superClass := some (.member c4CexMember) }

set_option maxRecDepth 8000 in
/-- C4, counterexample: the qualifier of the superclass is the blessed
module name `constructs`, yet a qualified-reference violation is emitted —
the handler never consults the qualifier, so the "if and only if the
qualifier is anything other than constructs" direction of the claim fails. -/
theorem c4_counterexample :
    c4CexMember.objectName = "constructs" ∧
    (handleEvent "f.ts" initialState (Event.classDeclaration c4CexClass)).2 =
      [{ message := qualifierViolationMessage, node := 4,
         fix := some [Fix.replaceRange (40, 60) "Construct"] }] := by
  refine ⟨rfl, by decide⟩

/-- C4 (amended): for a class declaration whose superclass is a member
expression, the qualified-reference violation built at the member
expression range is emitted if and only if the property name is
`Construct`; the qualifier object is never consulted, so references
qualified through `constructs` are reported as well. -/
theorem c4_extends_member_construct (fileName : String) (st : RuleState) (c : ClassDecl)
    (m : MemberExpr) (hsc : c.superClass = some (SuperClass.member m)) :
    report fileName st c.id m.range ∈ (handleEvent fileName st (Event.classDeclaration c)).2 ↔
      m.propName = some "Construct" := by
  constructor
  · intro h
    simp only [handleEvent, hsc] at h
    by_cases hp : m.propName = some "Construct"
    · exact hp
    · exfalso
      rw [if_neg hp, List.nil_append] at h
      by_cases hp2 : m.propName = some "CoreConstruct"
      · rw [if_pos hp2] at h
        have := reportImportOrderViolations_message fileName st _ h
        rw [report_message] at this
        exact qualifier_ne_isolation_message this
      · rw [if_neg hp2] at h
        exact List.not_mem_nil _ h
  · intro hp
    simp only [handleEvent, hsc]
    rw [if_pos hp]
    exact List.mem_append_left _ (List.mem_singleton.mpr rfl)

/-- Member expression `constructs.Construct` used by the C4 witness. -/
def c4WitnessMember : MemberExpr :=
  { objectName := "constructs", propName := some "Construct", range := (3, 25) }

/-- Class declaration used by the C4 witness. -/
def c4WitnessClass : ClassDecl := { id := 9, superClass := some (.member c4WitnessMember) }

/-- C4 witness: the violation is emitted for a concrete class extending
`constructs.Construct`. -/
theorem c4_extends_member_construct_witness :
    report "w4.ts" initialState 9 (3, 25) ∈
      (handleEvent "w4.ts" initialState (Event.classDeclaration c4WitnessClass)).2 :=
  (c4_extends_member_construct "w4.ts" initialState c4WitnessClass c4WitnessMember rfl).mpr rfl

/-! Claim C5: identifiers with a qualified type annotation. -/

/-- C5: for an identifier annotated with the qualified type `X.Construct`,
the qualified-reference violation built over the annotation range is
emitted if and only if `X` is not the blessed module name `constructs`. -/
theorem c5_qualified_type_reference (fileName : String) (st : RuleState) (n : IdentNode)
    (ta : TypeAnnotation) (x : String)
    (hta : n.typeAnnotation = some ta)
    (hq : ta.typeName = some (TSTypeName.qualified x "Construct")) :
    report fileName st n.id ta.range ∈ (handleEvent fileName st (Event.identifier n)).2 ↔
      x ≠ "constructs" := by
  constructor
  · intro h
    simp only [handleEvent, hta, hq] at h
    by_cases hx : x = "constructs"
    · exfalso
      have hc : ¬ (True ∧ x ≠ "constructs") := by
        intro hcontra
        exact hcontra.2 hx
      rw [if_neg hc, List.nil_append] at h
      by_cases hn : n.name = "CoreConstruct"
      · rw [if_pos hn] at h
        have := reportImportOrderViolations_message fileName st _ h
        rw [report_message] at this
        exact qualifier_ne_isolation_message this
      · rw [if_neg hn] at h
        exact List.not_mem_nil _ h
    · exact hx
  · intro hx
    simp only [handleEvent, hta, hq]
    rw [if_pos (⟨trivial, hx⟩ : True ∧ x ≠ "constructs")]
    exact List.mem_append_left _ (List.mem_singleton.mpr rfl)

/-- Type annotation `cdk.Construct` used by the C5 witness. -/
def c5WitnessAnn : TypeAnnotation :=
  { typeName := some (.qualified "cdk" "Construct"), range := (30, 42) }

/-- Identifier carrying the C5 witness annotation. -/
def c5WitnessIdent : IdentNode := { id := 7, name := "scope", typeAnnotation := some c5WitnessAnn }

/-- C5 witness: the violation is emitted for a concrete identifier
annotated `cdk.Construct`. -/
theorem c5_qualified_type_reference_witness :
    report "w5.ts" initialState 7 (30, 42) ∈
      (handleEvent "w5.ts" initialState (Event.identifier c5WitnessIdent)).2 :=
  (c5_qualified_type_reference "w5.ts" initialState c5WitnessIdent c5WitnessAnn "cdk" rfl
    rfl).mpr (by decide)

/-! Claim C6: a pending isolation violation with no subsequent usage. -/

/-- C6: when no event of the remaining stream of a file is an alias usage,
processing that stream emits no isolation report at all — in particular a
pending isolation violation recorded earlier is silently dropped and no
isolation-fix edit is ever produced for it. -/
theorem c6_no_premature_isolation_fix (fileName : String) (es : List Event) :
    ∀ st : RuleState, (∀ e ∈ es, isAliasUsage e = false) →
      (processEvents fileName st es).2.filter
        (fun r => r.message == isolationViolationMessage) = [] := by
  induction es with
  | nil => intro st h; rfl
  | cons e es ih =>
    intro st h
    show ((handleEvent fileName st e).2 ++
      (processEvents fileName (handleEvent fileName st e).1 es).2).filter
        (fun r => r.message == isolationViolationMessage) = []
    rw [List.filter_append]
    rw [ih (handleEvent fileName st e).1 (fun x hx => h x (List.mem_cons_of_mem e hx))]
    rw [List.append_nil]
    rw [List.filter_eq_nil_iff]
    intro rep hrep
    have hmsg := handleEvent_no_usage_message fileName e st (h e (List.mem_cons_self e es)) rep hrep
    simp [hmsg]
    exact qualifier_ne_isolation_message

/-- Import declaration whose second specifier binds CoreConstruct. -/
def c6WitnessImport : ImportDecl :=
  { id := 1, source := "@aws-cdk/core",
    specifiers := [.named "Resource" "Resource" (9, 17), .named "Construct" "CoreConstruct" (19, 44)] }

/-- A state with a pending isolation violation already recorded. -/
def c6WitnessState : RuleState :=
  { imports := [specRecord "f6.ts" c6WitnessImport (.named "Resource" "Resource" (9, 17))],
    importOrderViolation := some { node := c6WitnessImport, range := (19, 44) } }

/-- Remaining events of the file: a qualifier violation and a plain
identifier, but no usage of CoreConstruct. -/
def c6WitnessEvents : List Event :=
  [Event.classDeclaration { id := 3, superClass := some (.member { objectName := "cdk", propName := some "Construct", range := (50, 63) }) },
   Event.identifier { id := 4, name := "Resource", typeAnnotation := none }]

set_option maxRecDepth 8000 in
/-- C6 witness: from a state with a recorded pending violation, a stream
without alias usages produces reports, but none of them is an isolation
report. -/
theorem c6_no_premature_isolation_fix_witness :
    (processEvents "f6.ts" c6WitnessState c6WitnessEvents).2.filter
      (fun r => r.message == isolationViolationMessage) = [] ∧
    (processEvents "f6.ts" c6WitnessState c6WitnessEvents).2 ≠ [] := by
  refine ⟨c6_no_premature_isolation_fix "f6.ts" c6WitnessEvents c6WitnessState (by decide), ?_⟩
  decide

/-! Claim C7: the pending-isolation-violation slot. -/

/-- C7: the pending slot holds at most one value (it is an `Option`), the
`Program` handler run at the start of every file resets it to absent, and
an `ImportDeclaration` handler leaves in it the violation of the most
recent qualifying specifier of that declaration when one exists —
overwriting whatever was stored before — and keeps the previous value
otherwise. -/
theorem c7_pending_slot_reset_and_overwrite (fileName : String) (st : RuleState)
    (d : ImportDecl) :
    (handleEvent fileName st Event.program).1.importOrderViolation = none ∧
    (handleEvent fileName st (Event.importDeclaration d)).1.importOrderViolation =
      (match lastCoreConstructViolation d d.specifiers with
       | some v => some v
       | none => st.importOrderViolation) := by
  constructor
  · rfl
  · exact importSpecLoop_violation fileName d d.specifiers st

/-! Claim C8: cross-file independence. -/

/-- C8: processing a file from two states that agree on the pending slot
and on the cache records of that file — but may differ arbitrarily in the
records of other files — produces identical reports (hence identical
edits) and leaves identical file slices: bindings recorded for other files
never influence any lookup or fix decision, because every lookup filters
the cache by the current file name first. -/
theorem c8_cross_file_independence (f : File) (st1 st2 : RuleState)
    (h : cacheSlice st1 f.fileName = cacheSlice st2 f.fileName)
    (hv : st1.importOrderViolation = st2.importOrderViolation) :
    (processFile st1 f).2 = (processFile st2 f).2 ∧
    cacheSlice (processFile st1 f).1 f.fileName = cacheSlice (processFile st2 f).1 f.fileName := by
  unfold processFile
  split
  · exact ⟨rfl, h⟩
  · obtain ⟨hr, hc, _⟩ := processEvents_congr f.fileName f.events st1 st2 h hv
    exact ⟨hr, hc⟩

/-- Annotated identifier visited in the C8 witness file. -/
def c8WitnessIdent : IdentNode :=
  { id := 2, name := "y",
    typeAnnotation := some { typeName := some (.qualified "cdk" "Construct"), range := (1, 5) } }

/-- File processed by the C8 witness: it contains a qualifier violation
whose fix consults the cache. -/
def c8WitnessFile : File :=
  { fileName := "w8.ts", events := [Event.program, Event.identifier c8WitnessIdent] }

/-- A binding recorded for a different file, which would flip the decision
to the alias name if it leaked into the lookup. -/
def c8WitnessForeignRec : ImportCacheRecord :=
  { fileName := "other.ts", typeName := "Construct",
    importNode := { id := 21, source := "@aws-cdk/core", specifiers := [] },
    localName := "@aws-cdk/core.CoreConstruct" }

/-- A state carrying only the foreign-file binding. -/
def c8WitnessForeignState : RuleState :=
  { imports := [c8WitnessForeignRec], importOrderViolation := none }

set_option maxRecDepth 8000 in
/-- C8 witness: a run from the empty state and a run from a state holding
a foreign-file binding produce identical reports for the file, and the
replacement ignores the foreign alias binding. -/
theorem c8_cross_file_independence_witness :
    (processFile initialState c8WitnessFile).2 = (processFile c8WitnessForeignState c8WitnessFile).2 ∧
    (processFile c8WitnessForeignState c8WitnessFile).2 =
      [{ message := qualifierViolationMessage, node := 2,
         fix := some [Fix.replaceRange (1, 5) "Construct"] }] := by
  refine ⟨(c8_cross_file_independence c8WitnessFile initialState c8WitnessForeignState
    (by decide) rfl).1, by decide⟩

/-! Claim C9: files of the core package are skipped entirely. -/

/-- C9: for a file whose name contains `@aws-cdk/core`, `create` registers
no visitors: processing the file reports nothing and leaves the whole
state — cache included — unchanged. -/
theorem c9_skip_core_files (st : RuleState) (f : File)
    (h : strIncludes f.fileName "@aws-cdk/core" = true) :
    processFile st f = (st, []) := by
  unfold processFile
  rw [if_pos h]

/-- Import declaration appearing in the C9 witness file. -/
def c9WitnessImport : ImportDecl :=
  { id := 1, source := "constructs", specifiers := [.named "Construct" "Construct" (9, 18)] }

/-- Class declaration appearing in the C9 witness file. -/
def c9WitnessClass : ClassDecl :=
  { id := 2,
    superClass := some (.member { objectName := "cdk", propName := some "Construct", range := (30, 43) }) }

/-- File inside the core package used by the C9 witness; its stream even
contains an import and a violation that would otherwise be recorded and
reported. -/
def c9WitnessFile : File :=
  { fileName := "packages/@aws-cdk/core/lib/construct.ts",
    events := [Event.program, Event.importDeclaration c9WitnessImport,
      Event.classDeclaration c9WitnessClass] }

set_option maxRecDepth 8000 in
/-- C9 witness: the core-package file is skipped outright. -/
theorem c9_skip_core_files_witness :
    strIncludes "packages/@aws-cdk/core/lib/construct.ts" "@aws-cdk/core" = true ∧
    processFile initialState c9WitnessFile = (initialState, []) :=
  ⟨by decide, c9_skip_core_files initialState c9WitnessFile (by decide)⟩

/-! Claim C10: the isolation-fix anchor is always present. -/

/-- C10: starting from any state satisfying the anchor invariant — a set
pending slot implies a non-empty file slice of the cache, which holds in
particular for the initial state and right after the `Program` reset —
every report produced by processing the stream has a successfully built
fix: the isolation fix builder never dereferences an absent last import,
because the import declaration that set the pending violation also
recorded its bindings for this file before any usage could flush it. -/
theorem c10_isolation_fix_anchor_safe (fileName : String) (es : List Event) :
    ∀ st : RuleState,
      (st.importOrderViolation.isSome = true → cacheSlice st fileName ≠ []) →
      ∀ rep ∈ (processEvents fileName st es).2, rep.fix.isSome = true := by
  induction es with
  | nil => intro st hinv rep h; exact absurd h (List.not_mem_nil rep)
  | cons e es ih =>
    intro st hinv rep h
    have hsplit : rep ∈ (handleEvent fileName st e).2 ∨
        rep ∈ (processEvents fileName (handleEvent fileName st e).1 es).2 :=
      List.mem_append.mp h
    rcases hsplit with h1 | h2
    · exact handleEvent_fix_isSome fileName e st hinv rep h1
    · exact ih (handleEvent fileName st e).1 (handleEvent_anchor_invariant fileName e st hinv)
        rep h2

/-- Import declaration of the C10 witness: a combined import that sets the
pending violation and records two bindings. -/
def c10WitnessImport : ImportDecl :=
  { id := 1, source := "@aws-cdk/core",
    specifiers := [.named "Resource" "Resource" (9, 17), .named "Construct" "CoreConstruct" (19, 44)] }

/-- Event stream of the C10 witness: the pending violation is flushed by a
usage of CoreConstruct, so an isolation fix is actually built. -/
def c10WitnessEvents : List Event :=
  [Event.program, Event.importDeclaration c10WitnessImport,
   Event.identifier { id := 5, name := "CoreConstruct", typeAnnotation := none }]

set_option maxRecDepth 8000 in
/-- C10 witness: on a concrete run that does emit an isolation report,
every produced report has a built fix. -/
theorem c10_isolation_fix_anchor_safe_witness :
    ((processEvents "f.ts" initialState c10WitnessEvents).2.all (fun r => r.fix.isSome)) = true ∧
    ((processEvents "f.ts" initialState c10WitnessEvents).2.map (fun r => r.message)).contains
      isolationViolationMessage = true := by
  constructor
  · rw [List.all_eq_true]
    intro r hr
    exact c10_isolation_fix_anchor_safe "f.ts" c10WitnessEvents initialState (by decide) r hr
  · decide

end ImportCoreLast
